import Mathlib

/-!
# Verification development for the Solar Energy Calculator

A shallow embedding of the deterministic logic of `src/cal.py`:
the seasonal configuration table `SEASONS_CONFIG`, the calendar helper
`get_days_in_month`, the linear energy formula `calc_kwh_generalized`,
and the data generator `generate_seasonal_data`.

Modelling conventions:
* Python floats are modelled as exact rationals (`ℚ`); Python's `round(x, 2)`
  (banker's rounding to 2 decimals) is `round2`.
* The unseeded numpy random source is modelled as an explicit stream
  `rng : ℕ → ℚ` of unit-interval draws; `np.random.uniform(lo, hi)` is
  `uniform (lo, hi) u = lo + u * (hi - lo)` with `0 ≤ u < 1`.  The
  generator consumes five consecutive draws per record, in the same
  order as the source (irradiance, humidity, wind_speed,
  ambient_temperature, tilt_angle).
* The pandas `to_csv(index=False)` export and its parse are modelled
  character-exactly over `List Char` (`toCsvChars` / `parseCsvChars`),
  with floats printed in Python's shortest-repr style for 2-decimal values.
-/

set_option maxRecDepth 8000

/-- The twelve calendar months (keys of `MONTH_NAME_TO_NUM` in the source). -/
inductive Month
  | january | february | march | april | may | june
  | july | august | september | october | november | december
deriving DecidableEq, Repr

/-- `MONTH_NAME_TO_NUM` from the source: month name → month number. -/
def MONTH_NAME_TO_NUM : Month → ℕ
  | .january => 1
  | .february => 2
  | .march => 3
  | .april => 4
  | .may => 5
  | .june => 6
  | .july => 7
  | .august => 8
  | .september => 9
  | .october => 10
  | .november => 11
  | .december => 12

/-- The month-name strings used by the source. -/
def monthName : Month → String
  | .january => "January"
  | .february => "February"
  | .march => "March"
  | .april => "April"
  | .may => "May"
  | .june => "June"
  | .july => "July"
  | .august => "August"
  | .september => "September"
  | .october => "October"
  | .november => "November"
  | .december => "December"

/-- The four season keys of `SEASONS_CONFIG`. -/
inductive Season
  | winter | spring | summer | autumn
deriving DecidableEq, Repr

/-- The season-key strings used by the source. -/
def seasonName : Season → String
  | .winter => "winter"
  | .spring => "spring"
  | .summer => "summer"
  | .autumn => "autumn"

/-- The five sampled parameters (keys of each season's `ranges` dict). -/
inductive Param
  | irradiance | humidity | wind_speed | ambient_temperature | tilt_angle
deriving DecidableEq, Repr

/-- One season's entry in `SEASONS_CONFIG` (the presentational `color` and
`icon` fields are omitted: nothing computational reads them). -/
structure SeasonConfig where
  months : List Month
  ranges : Param → ℚ × ℚ

/-- The `SEASONS_CONFIG` table from the source. -/
def SEASONS_CONFIG : Season → SeasonConfig
  | .winter =>
    { months := [.november, .december, .january, .february]
      ranges := fun p => match p with
        | .irradiance => (300, 700)
        | .humidity => (30, 70)
        | .wind_speed => (1, 6)
        | .ambient_temperature => (5, 20)
        | .tilt_angle => (10, 40) }
  | .spring =>
    { months := [.march, .april, .may]
      ranges := fun p => match p with
        | .irradiance => (400, 800)
        | .humidity => (40, 80)
        | .wind_speed => (2, 8)
        | .ambient_temperature => (15, 25)
        | .tilt_angle => (15, 35) }
  | .summer =>
    { months := [.june, .july, .august]
      ranges := fun p => match p with
        | .irradiance => (600, 1000)
        | .humidity => (50, 90)
        | .wind_speed => (3, 10)
        | .ambient_temperature => (25, 40)
        | .tilt_angle => (0, 30) }
  | .autumn =>
    { months := [.september, .october]
      ranges := fun p => match p with
        | .irradiance => (350, 750)
        | .humidity => (35, 75)
        | .wind_speed => (2, 7)
        | .ambient_temperature => (10, 25)
        | .tilt_angle => (20, 45) }

/-- Gregorian leap-year rule, as implemented by Python's `calendar.isleap`. -/
def isLeapYear (year : ℕ) : Bool :=
  year % 4 == 0 && (year % 100 != 0 || year % 400 == 0)

/-- `get_days_in_month` from the source: `calendar.monthrange(year, m)[1]`. -/
def get_days_in_month (month : Month) (year : ℕ) : ℕ :=
  match month with
  | .january => 31
  | .february => if isLeapYear year then 29 else 28
  | .march => 31
  | .april => 30
  | .may => 31
  | .june => 30
  | .july => 31
  | .august => 31
  | .september => 30
  | .october => 31
  | .november => 30
  | .december => 31

/-- Round a rational to the nearest integer, ties to even
(the rounding mode of Python's builtin `round`). -/
def bankersRound (x : ℚ) : ℤ :=
  if x - ⌊x⌋ < 1/2 then ⌊x⌋
  else if (1 : ℚ)/2 < x - ⌊x⌋ then ⌊x⌋ + 1
  else if 2 ∣ ⌊x⌋ then ⌊x⌋ else ⌊x⌋ + 1

/-- Python's `round(x, 2)` on exact rationals. -/
def round2 (x : ℚ) : ℚ := (bankersRound (100 * x) : ℚ) / 100

/-- The per-season coefficient sets of `calc_kwh_generalized`. -/
structure Coeffs where
  irr : ℚ
  hum : ℚ
  wind : ℚ
  temp : ℚ
  tilt : ℚ

/-- The `coefficients` dict inside `calc_kwh_generalized`. -/
def coefficients : Season → Coeffs
  | .winter => ⟨0.18, -0.03, 0.015, 0.08, -0.02⟩
  | .spring => ⟨0.20, -0.025, 0.02, 0.06, -0.015⟩
  | .summer => ⟨0.22, -0.035, 0.025, 0.04, -0.01⟩
  | .autumn => ⟨0.19, -0.028, 0.018, 0.07, -0.018⟩

/-- `calc_kwh_generalized` from the source. -/
def calc_kwh_generalized (irradiance humidity wind_speed ambient_temp tilt_angle : ℚ)
    (season : Season) : ℚ :=
  let coeff := coefficients season
  let optimal_tilt : ℚ := if season = .winter ∨ season = .spring then 30 else 20
  coeff.irr * irradiance +
    coeff.hum * humidity +
    coeff.wind * wind_speed +
    coeff.temp * ambient_temp +
    coeff.tilt * |tilt_angle - optimal_tilt|

/-- `np.random.uniform(lo, hi)` given a unit-interval draw `u`. -/
def uniform (range : ℚ × ℚ) (u : ℚ) : ℚ := range.1 + u * (range.2 - range.1)

/-- Position of each parameter in the source's fixed draw order. -/
def paramIdx : Param → ℕ
  | .irradiance => 0
  | .humidity => 1
  | .wind_speed => 2
  | .ambient_temperature => 3
  | .tilt_angle => 4

/-- Decimal digit as a character. -/
def digitChar (d : ℕ) : Char := Char.ofNat (48 + d)

/-- Decimal digits of `n` (empty for 0), with `fuel ≥ n` for structural recursion. -/
def natChars : ℕ → ℕ → List Char
  | 0, _ => []
  | fuel + 1, n => if n = 0 then [] else natChars fuel (n / 10) ++ [digitChar (n % 10)]

/-- Decimal rendering of a natural number, as Python's `str`. -/
def natStr (n : ℕ) : List Char := if n = 0 then ['0'] else natChars n n

/-- Python's `f"{n:02d}"`: zero-pad to two digits. -/
def pad2 (n : ℕ) : List Char := if n < 10 then '0' :: natStr n else natStr n

/-- The record's date string `f"{year}-{month_num:02d}-{day:02d}"`. -/
def dateChars (year mnum day : ℕ) : List Char :=
  natStr year ++ '-' :: (pad2 mnum ++ '-' :: pad2 day)

/-- `dateChars` packaged as a `String`. -/
def dateStr (year mnum day : ℕ) : String := ⟨dateChars year mnum day⟩

/-- One row of the generated dataset (the dict appended to `data` in
`generate_seasonal_data`, fields in insertion order). -/
structure DailyRecord where
  date : String
  irradiance : ℚ
  humidity : ℚ
  wind_speed : ℚ
  ambient_temperature : ℚ
  tilt_angle : ℚ
  kwh : ℚ
  season : Season
  month : Month
  day : ℕ
deriving DecidableEq, Repr

/-- The loop body of `generate_seasonal_data` for one `(month, day)`:
draw the five parameters (`u p` is the unit draw for parameter `p`),
compute `kwh` on the unrounded draws, store the rounded values. -/
def mkRecord (season : Season) (ranges : Param → ℚ × ℚ) (year : ℕ) (month : Month)
    (day : ℕ) (u : Param → ℚ) : DailyRecord :=
  let irr := uniform (ranges .irradiance) (u .irradiance)
  let hum := uniform (ranges .humidity) (u .humidity)
  let wind := uniform (ranges .wind_speed) (u .wind_speed)
  let temp := uniform (ranges .ambient_temperature) (u .ambient_temperature)
  let tilt := uniform (ranges .tilt_angle) (u .tilt_angle)
  let kwh := calc_kwh_generalized irr hum wind temp tilt season
  { date := dateStr year (MONTH_NAME_TO_NUM month) day
    irradiance := round2 irr
    humidity := round2 hum
    wind_speed := round2 wind
    ambient_temperature := round2 temp
    tilt_angle := round2 tilt
    kwh := round2 kwh
    season := season
    month := month
    day := day }

/-- The `(month, day)` pairs visited by the two nested loops of
`generate_seasonal_data`, in iteration order. -/
def datesOf (months : List Month) (year : ℕ) : List (Month × ℕ) :=
  months.flatMap fun m => (List.range (get_days_in_month m year)).map fun k => (m, k + 1)

/-- Tail of the generation loop: record number `i` (0-based, across the whole
run) consumes the five stream draws `rng (5*i) … rng (5*i+4)`, matching the
five sequential `np.random.uniform` calls per iteration. -/
def genFrom (season : Season) (ranges : Param → ℚ × ℚ) (year : ℕ) :
    List (Month × ℕ) → ℕ → (ℕ → ℚ) → List DailyRecord
  | [], _, _ => []
  | md :: rest, i, rng =>
      mkRecord season ranges year md.1 md.2 (fun p => rng (5 * i + paramIdx p)) ::
        genFrom season ranges year rest (i + 1) rng

/-- `generate_seasonal_data` from the source, with the random source explicit. -/
def generate_seasonal_data (season : Season) (months : List Month)
    (ranges : Param → ℚ × ℚ) (year : ℕ) (rng : ℕ → ℚ) : List DailyRecord :=
  genFrom season ranges year (datesOf months year) 0 rng

/-- Any integer within distance `1/2` of `x` (strictly) is its rounding. -/
theorem bankersRound_eq_of_near (x : ℚ) (z : ℤ) (h : |x - (z : ℚ)| < 1/2) :
    bankersRound x = z := by
  rw [abs_lt] at h
  obtain ⟨h1, h2⟩ := h
  rcases le_or_lt (z : ℚ) x with hle | hlt
  · have hf : ⌊x⌋ = z := Int.floor_eq_iff.mpr ⟨hle, by linarith⟩
    rw [bankersRound, hf, if_pos (by linarith)]
  · have hf : ⌊x⌋ = z - 1 := by
      apply Int.floor_eq_iff.mpr
      constructor
      · push_cast; linarith
      · push_cast; linarith
    rw [bankersRound, hf, if_neg (by push_cast; linarith),
      if_pos (by push_cast; linarith)]
    omega

/-- `round2` at a non-tie point: if `z` is within `1/2` of `100 * x`,
then `round2 x = z / 100`. -/
theorem round2_eq_of_near (x : ℚ) (z : ℤ) (h : |100 * x - (z : ℚ)| < 1/2) :
    round2 x = (z : ℚ) / 100 := by
  rw [round2, bankersRound_eq_of_near _ z h]

/-- Lower half-bound of the rounding. -/
theorem le_bankersRound (x : ℚ) : x - 1/2 ≤ (bankersRound x : ℚ) := by
  have h1 : ((⌊x⌋ : ℤ) : ℚ) ≤ x := Int.floor_le x
  have h2 : x < ⌊x⌋ + 1 := Int.lt_floor_add_one x
  rw [bankersRound]
  split_ifs <;> push_cast <;> linarith

/-- Upper half-bound of the rounding. -/
theorem bankersRound_le (x : ℚ) : (bankersRound x : ℚ) ≤ x + 1/2 := by
  have h1 : ((⌊x⌋ : ℤ) : ℚ) ≤ x := Int.floor_le x
  have h2 : x < ⌊x⌋ + 1 := Int.lt_floor_add_one x
  rw [bankersRound]
  split_ifs <;> push_cast <;> linarith

/-- Uniform access to the five sampled fields of a record. -/
def paramVal (r : DailyRecord) : Param → ℚ
  | .irradiance => r.irradiance
  | .humidity => r.humidity
  | .wind_speed => r.wind_speed
  | .ambient_temperature => r.ambient_temperature
  | .tilt_angle => r.tilt_angle

theorem mkRecord_paramVal (season : Season) (ranges : Param → ℚ × ℚ) (year : ℕ)
    (month : Month) (day : ℕ) (u : Param → ℚ) (p : Param) :
    paramVal (mkRecord season ranges year month day u) p = round2 (uniform (ranges p) (u p)) := by
  cases p <;> rfl

theorem genFrom_length (season : Season) (ranges : Param → ℚ × ℚ) (year : ℕ)
    (l : List (Month × ℕ)) (i : ℕ) (rng : ℕ → ℚ) :
    (genFrom season ranges year l i rng).length = l.length := by
  induction l generalizing i with
  | nil => rfl
  | cons md rest ih => simp [genFrom, ih]

theorem datesOf_length (months : List Month) (year : ℕ) :
    (datesOf months year).length = (months.map (fun m => get_days_in_month m year)).sum := by
  induction months with
  | nil => rfl
  | cons m rest ih =>
    simp only [datesOf, List.flatMap_cons, List.length_append, List.length_map,
      List.length_range, List.map_cons, List.sum_cons]
    simp only [datesOf] at ih
    rw [ih]

theorem genFrom_getElem (season : Season) (ranges : Param → ℚ × ℚ) (year : ℕ)
    (l : List (Month × ℕ)) (i k : ℕ) (rng : ℕ → ℚ) :
    (genFrom season ranges year l i rng)[k]? =
      (l[k]?).map fun md =>
        mkRecord season ranges year md.1 md.2 fun p => rng (5 * (i + k) + paramIdx p) := by
  induction l generalizing i k with
  | nil => simp [genFrom]
  | cons md rest ih =>
    cases k with
    | zero => simp [genFrom]
    | succ k =>
      simp only [genFrom, List.getElem?_cons_succ]
      rw [ih (i + 1) k]
      have : i + 1 + k = i + (k + 1) := by omega
      rw [this]

theorem mem_genFrom (season : Season) (ranges : Param → ℚ × ℚ) (year : ℕ)
    (l : List (Month × ℕ)) (i : ℕ) (rng : ℕ → ℚ) (r : DailyRecord)
    (h : r ∈ genFrom season ranges year l i rng) :
    ∃ md ∈ l, ∃ j, r = mkRecord season ranges year md.1 md.2
      fun p => rng (5 * j + paramIdx p) := by
  induction l generalizing i with
  | nil => simp [genFrom] at h
  | cons md rest ih =>
    rw [genFrom, List.mem_cons] at h
    rcases h with h | h
    · exact ⟨md, List.mem_cons_self md rest, i, h⟩
    · obtain ⟨md', hmd', j, hj⟩ := ih (i + 1) h
      exact ⟨md', List.mem_cons_of_mem md hmd', j, hj⟩

/-- The stored (rounded) value of a uniform draw from a 2-decimal range
`[lo, hi)` stays within the closed range `[lo, hi]`. -/
theorem round2_uniform_mem (lo hi u : ℚ) (a b : ℤ)
    (hlo : lo = (a : ℚ) / 100) (hhi : hi = (b : ℚ) / 100) (hab : lo ≤ hi)
    (hu0 : 0 ≤ u) (hu1 : u < 1) :
    lo ≤ round2 (uniform (lo, hi) u) ∧ round2 (uniform (lo, hi) u) ≤ hi := by
  set v := uniform (lo, hi) u with hv
  have hd : 0 ≤ hi - lo := by linarith
  have hvlo : lo ≤ v := by
    have : 0 ≤ u * (hi - lo) := mul_nonneg hu0 hd
    simp only [hv, uniform]
    linarith
  have hvhi : v ≤ hi := by
    have : u * (hi - lo) ≤ 1 * (hi - lo) := mul_le_mul_of_nonneg_right (le_of_lt hu1) hd
    simp only [hv, uniform]
    linarith
  have hlow : (a : ℚ) ≤ (bankersRound (100 * v) : ℚ) := by
    have h1 := le_bankersRound (100 * v)
    have h2 : (a : ℚ) - 1 < (bankersRound (100 * v) : ℚ) := by
      have : (a : ℚ) ≤ 100 * v := by rw [hlo] at hvlo; linarith
      linarith
    have h3 : a - 1 < bankersRound (100 * v) := by exact_mod_cast h2
    have h4 : a ≤ bankersRound (100 * v) := by omega
    exact_mod_cast h4
  have hhigh : (bankersRound (100 * v) : ℚ) ≤ (b : ℚ) := by
    have h1 := bankersRound_le (100 * v)
    have h2 : (bankersRound (100 * v) : ℚ) < (b : ℚ) + 1 := by
      have : 100 * v ≤ (b : ℚ) := by rw [hhi] at hvhi; linarith
      linarith
    have h3 : bankersRound (100 * v) < b + 1 := by exact_mod_cast h2
    have h4 : bankersRound (100 * v) ≤ b := by omega
    exact_mod_cast h4
  constructor
  · rw [round2, hlo]
    exact div_le_div_of_nonneg_right hlow (by norm_num)
  · rw [round2, hhi]
    exact div_le_div_of_nonneg_right hhigh (by norm_num)

theorem mkRecord_month (season : Season) (ranges : Param → ℚ × ℚ) (year : ℕ)
    (month : Month) (day : ℕ) (u : Param → ℚ) :
    (mkRecord season ranges year month day u).month = month := rfl

theorem mkRecord_day (season : Season) (ranges : Param → ℚ × ℚ) (year : ℕ)
    (month : Month) (day : ℕ) (u : Param → ℚ) :
    (mkRecord season ranges year month day u).day = day := rfl

theorem mkRecord_date (season : Season) (ranges : Param → ℚ × ℚ) (year : ℕ)
    (month : Month) (day : ℕ) (u : Param → ℚ) :
    (mkRecord season ranges year month day u).date =
      dateStr year (MONTH_NAME_TO_NUM month) day := rfl

theorem mkRecord_kwh (season : Season) (ranges : Param → ℚ × ℚ) (year : ℕ)
    (month : Month) (day : ℕ) (u : Param → ℚ) :
    (mkRecord season ranges year month day u).kwh =
      round2 (calc_kwh_generalized
        (uniform (ranges .irradiance) (u .irradiance))
        (uniform (ranges .humidity) (u .humidity))
        (uniform (ranges .wind_speed) (u .wind_speed))
        (uniform (ranges .ambient_temperature) (u .ambient_temperature))
        (uniform (ranges .tilt_angle) (u .tilt_angle)) season) := rfl

theorem genFrom_map_monthday (season : Season) (ranges : Param → ℚ × ℚ) (year : ℕ)
    (l : List (Month × ℕ)) (i : ℕ) (rng : ℕ → ℚ) :
    (genFrom season ranges year l i rng).map (fun r => (r.month, r.day)) = l := by
  induction l generalizing i with
  | nil => rfl
  | cons md rest ih =>
    simp only [genFrom, List.map_cons, mkRecord_month, mkRecord_day, ih]

theorem genFrom_map_month (season : Season) (ranges : Param → ℚ × ℚ) (year : ℕ)
    (l : List (Month × ℕ)) (i : ℕ) (rng : ℕ → ℚ) :
    (genFrom season ranges year l i rng).map (fun r => r.month) = l.map Prod.fst := by
  induction l generalizing i with
  | nil => rfl
  | cons md rest ih =>
    simp only [genFrom, List.map_cons, mkRecord_month, ih]

theorem genFrom_map_date (season : Season) (ranges : Param → ℚ × ℚ) (year : ℕ)
    (l : List (Month × ℕ)) (i : ℕ) (rng : ℕ → ℚ) :
    (genFrom season ranges year l i rng).map (fun r => r.date) =
      l.map (fun md => dateStr year (MONTH_NAME_TO_NUM md.1) md.2) := by
  induction l generalizing i with
  | nil => rfl
  | cons md rest ih =>
    simp only [genFrom, List.map_cons, mkRecord_date, ih]

/-- The first projection of `datesOf` is each month repeated once per day. -/
theorem datesOf_map_fst (months : List Month) (year : ℕ) :
    (datesOf months year).map Prod.fst =
      months.flatMap (fun m => List.replicate (get_days_in_month m year) m) := by
  induction months with
  | nil => rfl
  | cons m rest ih =>
    simp only [datesOf, List.flatMap_cons, List.map_append, List.map_map]
    simp only [datesOf] at ih
    rw [ih]
    congr 1
    induction (get_days_in_month m year) with
    | zero => rfl
    | succ n ihn =>
      rw [List.range_succ, List.map_append, List.replicate_succ']
      rw [ihn]
      rfl

/-- Each configured range is a pair of integers `a ≤ b`. -/
theorem SEASONS_CONFIG_ranges_int (s : Season) (p : Param) :
    ∃ a b : ℤ, (SEASONS_CONFIG s).ranges p = ((a : ℚ), (b : ℚ)) ∧ a ≤ b := by
  cases s <;> cases p
  · exact ⟨300, 700, by norm_num [SEASONS_CONFIG, Prod.ext_iff], by omega⟩
  · exact ⟨30, 70, by norm_num [SEASONS_CONFIG, Prod.ext_iff], by omega⟩
  · exact ⟨1, 6, by norm_num [SEASONS_CONFIG, Prod.ext_iff], by omega⟩
  · exact ⟨5, 20, by norm_num [SEASONS_CONFIG, Prod.ext_iff], by omega⟩
  · exact ⟨10, 40, by norm_num [SEASONS_CONFIG, Prod.ext_iff], by omega⟩
  · exact ⟨400, 800, by norm_num [SEASONS_CONFIG, Prod.ext_iff], by omega⟩
  · exact ⟨40, 80, by norm_num [SEASONS_CONFIG, Prod.ext_iff], by omega⟩
  · exact ⟨2, 8, by norm_num [SEASONS_CONFIG, Prod.ext_iff], by omega⟩
  · exact ⟨15, 25, by norm_num [SEASONS_CONFIG, Prod.ext_iff], by omega⟩
  · exact ⟨15, 35, by norm_num [SEASONS_CONFIG, Prod.ext_iff], by omega⟩
  · exact ⟨600, 1000, by norm_num [SEASONS_CONFIG, Prod.ext_iff], by omega⟩
  · exact ⟨50, 90, by norm_num [SEASONS_CONFIG, Prod.ext_iff], by omega⟩
  · exact ⟨3, 10, by norm_num [SEASONS_CONFIG, Prod.ext_iff], by omega⟩
  · exact ⟨25, 40, by norm_num [SEASONS_CONFIG, Prod.ext_iff], by omega⟩
  · exact ⟨0, 30, by norm_num [SEASONS_CONFIG, Prod.ext_iff], by omega⟩
  · exact ⟨350, 750, by norm_num [SEASONS_CONFIG, Prod.ext_iff], by omega⟩
  · exact ⟨35, 75, by norm_num [SEASONS_CONFIG, Prod.ext_iff], by omega⟩
  · exact ⟨2, 7, by norm_num [SEASONS_CONFIG, Prod.ext_iff], by omega⟩
  · exact ⟨10, 25, by norm_num [SEASONS_CONFIG, Prod.ext_iff], by omega⟩
  · exact ⟨20, 45, by norm_num [SEASONS_CONFIG, Prod.ext_iff], by omega⟩

/-- `round2` fixes exact 2-decimal rationals. -/
theorem round2_exact (q : ℚ) (z : ℤ) (h : 100 * q = (z : ℚ)) : round2 q = q := by
  have hz : round2 q = (z : ℚ) / 100 := by
    apply round2_eq_of_near q z
    rw [h, sub_self, abs_zero]
    norm_num
  rw [hz, ← h]
  rw [mul_comm, mul_div_assoc]
  norm_num

/-- A constant mid-interval draw stream. -/
def rngHalf : ℕ → ℚ := fun _ => 1/2

/-- A constant draw stream close to the top of the unit interval. -/
def rngHigh : ℕ → ℚ := fun _ => 999999/1000000

/-- The first record generated for winter 2024 from `rngHalf`. -/
def exampleRecordHalf : DailyRecord :=
  mkRecord .winter (SEASONS_CONFIG .winter).ranges 2024 .november 1 (fun _ => 1/2)

/-- The first record generated for winter 2024 from `rngHigh`. -/
def exampleRecordHigh : DailyRecord :=
  mkRecord .winter (SEASONS_CONFIG .winter).ranges 2024 .november 1
    (fun _ => 999999/1000000)

theorem gen_winter_rngHalf_head :
    (generate_seasonal_data .winter (SEASONS_CONFIG .winter).months
      (SEASONS_CONFIG .winter).ranges 2024 rngHalf)[0]? = some exampleRecordHalf := by
  rw [generate_seasonal_data, genFrom_getElem,
    show (datesOf (SEASONS_CONFIG .winter).months 2024)[0]? = some (Month.november, 1)
      from by decide]
  rfl

theorem gen_winter_rngHigh_head :
    (generate_seasonal_data .winter (SEASONS_CONFIG .winter).months
      (SEASONS_CONFIG .winter).ranges 2024 rngHigh)[0]? = some exampleRecordHigh := by
  rw [generate_seasonal_data, genFrom_getElem,
    show (datesOf (SEASONS_CONFIG .winter).months 2024)[0]? = some (Month.november, 1)
      from by decide]
  rfl

/- ====================  The claims  ==================== -/

/-- C1: for every valid season and every year, the number of records produced
by `generate_seasonal_data` equals the sum, over the season's constituent
months, of the number of days in that month in that year. -/
theorem claim_C1_record_count (season : Season) (year : ℕ) (rng : ℕ → ℚ) :
    (generate_seasonal_data season (SEASONS_CONFIG season).months
        (SEASONS_CONFIG season).ranges year rng).length =
      ((SEASONS_CONFIG season).months.map (fun m => get_days_in_month m year)).sum := by
  rw [generate_seasonal_data, genFrom_length, datesOf_length]

/-- C2: for every season and all inputs, the energy function returns
`c_irr*irr + c_hum*hum + c_wind*wind + c_temp*temp + c_tilt*|tilt - optimal|`
with the season-specific constants, where `optimal` is 30 for winter and
spring and 20 for summer and autumn; in particular for winter with
irradiance 500, humidity 50, wind 3, temperature 10, tilt 30 the result
is exactly 89.345. -/
theorem claim_C2_energy_formula :
    (∀ irr hum wind temp tilt : ℚ,
      calc_kwh_generalized irr hum wind temp tilt .winter =
        0.18 * irr + (-0.03) * hum + 0.015 * wind + 0.08 * temp + (-0.02) * |tilt - 30|) ∧
    (∀ irr hum wind temp tilt : ℚ,
      calc_kwh_generalized irr hum wind temp tilt .spring =
        0.20 * irr + (-0.025) * hum + 0.02 * wind + 0.06 * temp + (-0.015) * |tilt - 30|) ∧
    (∀ irr hum wind temp tilt : ℚ,
      calc_kwh_generalized irr hum wind temp tilt .summer =
        0.22 * irr + (-0.035) * hum + 0.025 * wind + 0.04 * temp + (-0.01) * |tilt - 20|) ∧
    (∀ irr hum wind temp tilt : ℚ,
      calc_kwh_generalized irr hum wind temp tilt .autumn =
        0.19 * irr + (-0.028) * hum + 0.018 * wind + 0.07 * temp + (-0.018) * |tilt - 20|) ∧
    calc_kwh_generalized 500 50 3 10 30 .winter = 89.345 := by
  refine ⟨?_, ?_, ?_, ?_, ?_⟩
  · intro irr hum wind temp tilt
    simp only [calc_kwh_generalized, coefficients, true_or, or_true, if_true]
  · intro irr hum wind temp tilt
    simp only [calc_kwh_generalized, coefficients, true_or, or_true, if_true]
  · intro irr hum wind temp tilt
    simp only [calc_kwh_generalized, coefficients]
    rw [if_neg (by decide)]
  · intro irr hum wind temp tilt
    simp only [calc_kwh_generalized, coefficients]
    rw [if_neg (by decide)]
  · norm_num [calc_kwh_generalized, coefficients]

/-- C5: the month lists of the four season variants partition the twelve
calendar months — every month appears in exactly one season's list. -/
theorem claim_C5_season_partition :
    ([Season.winter, .spring, .summer, .autumn].flatMap
        (fun s => (SEASONS_CONFIG s).months)).Perm
      [Month.january, .february, .march, .april, .may, .june,
       .july, .august, .september, .october, .november, .december] := by
  decide

/-- C6: winter 2024 contains 29 February records, among them one for
February 29; winter 2023 contains exactly 28 February records and none
for February 29. -/
theorem claim_C6_leap_year :
    (∀ rng : ℕ → ℚ,
      ((generate_seasonal_data .winter (SEASONS_CONFIG .winter).months
          (SEASONS_CONFIG .winter).ranges 2024 rng).map (fun r => r.month)).count
            Month.february = 29 ∧
      (Month.february, 29) ∈ (generate_seasonal_data .winter (SEASONS_CONFIG .winter).months
          (SEASONS_CONFIG .winter).ranges 2024 rng).map (fun r => (r.month, r.day))) ∧
    (∀ rng : ℕ → ℚ,
      ((generate_seasonal_data .winter (SEASONS_CONFIG .winter).months
          (SEASONS_CONFIG .winter).ranges 2023 rng).map (fun r => r.month)).count
            Month.february = 28 ∧
      (Month.february, 29) ∉ (generate_seasonal_data .winter (SEASONS_CONFIG .winter).months
          (SEASONS_CONFIG .winter).ranges 2023 rng).map (fun r => (r.month, r.day))) := by
  constructor <;>
    · intro rng
      rw [generate_seasonal_data, genFrom_map_month, genFrom_map_monthday]
      constructor <;> decide

/-- C7: the energy function is deterministic — two invocations on equal
inputs return equal results (in this embedding it is a pure function of
its arguments, with no other state). -/
theorem claim_C7_determinism (i₁ h₁ w₁ t₁ a₁ : ℚ) (s₁ : Season)
    (i₂ h₂ w₂ t₂ a₂ : ℚ) (s₂ : Season)
    (hi : i₁ = i₂) (hh : h₁ = h₂) (hw : w₁ = w₂) (ht : t₁ = t₂) (ha : a₁ = a₂)
    (hs : s₁ = s₂) :
    calc_kwh_generalized i₁ h₁ w₁ t₁ a₁ s₁ = calc_kwh_generalized i₂ h₂ w₂ t₂ a₂ s₂ := by
  subst hi; subst hh; subst hw; subst ht; subst ha; subst hs; rfl

theorem claim_C7_determinism_witness :
    calc_kwh_generalized 500 50 3 10 30 .winter =
      calc_kwh_generalized 500 50 3 10 30 .winter :=
  claim_C7_determinism 500 50 3 10 30 .winter 500 50 3 10 30 .winter
    rfl rfl rfl rfl rfl rfl

/-- What the main section of the page renders. -/
inductive MainView
  | dashboard (df : List DailyRecord)
  | info (msg : String)

/-- The `st.info` prompt shown before any data has been generated. -/
def GENERATE_PROMPT : String :=
  "👆 Click \x27Generate Solar Data\x27 to start analyzing solar energy production!"

/-- The `if \x27solar_data\x27 in st.session_state: … else: st.info(…)` guard:
given the session state's stored dataset (or `none`), decide what the main
section shows. -/
def renderMain (solar_data : Option (List DailyRecord)) : MainView :=
  match solar_data with
  | some df => .dashboard df
  | none => .info GENERATE_PROMPT

/-- C8: with no generated dataset in the session state, the page renders no
statistics or charts and instead shows the generate-first prompt; the guard
takes the prompt branch exactly when the session state lacks data. -/
theorem claim_C8_empty_state_guard :
    renderMain none = .info GENERATE_PROMPT ∧
    (∀ df, renderMain (some df) = .dashboard df) ∧
    (∀ s, (∃ msg, renderMain s = .info msg) ↔ s = none) := by
  refine ⟨rfl, fun df => rfl, fun s => ?_⟩
  cases s with
  | none => exact ⟨fun _ => rfl, fun _ => ⟨GENERATE_PROMPT, rfl⟩⟩
  | some df =>
    constructor
    · rintro ⟨msg, hmsg⟩
      exact absurd hmsg (by simp [renderMain])
    · intro h
      exact absurd h (by simp)

/-- C3 (amended): every stored parameter value of a generated record lies in
the CLOSED configured range `[min, max]` (the stored value is the uniform
draw rounded to 2 decimals, so it can land exactly on `max`). -/
theorem claim_C3_param_bounds (season : Season) (year : ℕ) (rng : ℕ → ℚ)
    (hrng : ∀ n, 0 ≤ rng n ∧ rng n < 1) (r : DailyRecord)
    (hr : r ∈ generate_seasonal_data season (SEASONS_CONFIG season).months
      (SEASONS_CONFIG season).ranges year rng) (p : Param) :
    ((SEASONS_CONFIG season).ranges p).1 ≤ paramVal r p ∧
      paramVal r p ≤ ((SEASONS_CONFIG season).ranges p).2 := by
  rw [generate_seasonal_data] at hr
  obtain ⟨md, hmd, j, rfl⟩ := mem_genFrom _ _ _ _ _ _ _ hr
  rw [mkRecord_paramVal]
  obtain ⟨hu0, hu1⟩ := hrng (5 * j + paramIdx p)
  obtain ⟨a, b, hab, hle⟩ := SEASONS_CONFIG_ranges_int season p
  rw [hab]
  exact round2_uniform_mem (a : ℚ) (b : ℚ) _ (100 * a) (100 * b)
    (by push_cast; ring) (by push_cast; ring) (by exact_mod_cast hle) hu0 hu1

theorem claim_C3_param_bounds_witness :
    (∀ n, 0 ≤ rngHalf n ∧ rngHalf n < 1) ∧
    (((SEASONS_CONFIG .winter).ranges .irradiance).1 ≤
        paramVal exampleRecordHalf .irradiance ∧
      paramVal exampleRecordHalf .irradiance ≤
        ((SEASONS_CONFIG .winter).ranges .irradiance).2) := by
  have hrng : ∀ n, 0 ≤ rngHalf n ∧ rngHalf n < 1 := fun n =>
    ⟨by norm_num [rngHalf], by norm_num [rngHalf]⟩
  exact ⟨hrng, claim_C3_param_bounds .winter 2024 rngHalf hrng exampleRecordHalf
    (List.getElem?_mem gen_winter_rngHalf_head) .irradiance⟩

/-- C3 as stated is false: with a legitimate draw stream (all draws in
`[0, 1)`) the generator can store a parameter value equal to the range
maximum, violating the strict upper bound `value < max(range)`. -/
theorem claim_C3_counterexample :
    (∀ n, 0 ≤ rngHigh n ∧ rngHigh n < 1) ∧
    ∃ r ∈ generate_seasonal_data .winter (SEASONS_CONFIG .winter).months
        (SEASONS_CONFIG .winter).ranges 2024 rngHigh,
      ¬ paramVal r .irradiance < ((SEASONS_CONFIG .winter).ranges .irradiance).2 := by
  refine ⟨fun n => ⟨by norm_num [rngHigh], by norm_num [rngHigh]⟩,
    exampleRecordHigh, List.getElem?_mem gen_winter_rngHigh_head, ?_⟩
  have hv : paramVal exampleRecordHigh .irradiance =
      round2 (uniform ((300 : ℚ), 700) (999999/1000000)) := rfl
  have hu : uniform ((300 : ℚ), 700) (999999/1000000) = 1749999/2500 := by
    norm_num [uniform]
  have hr : round2 ((1749999 : ℚ)/2500) = (70000 : ℚ) / 100 := by
    apply round2_eq_of_near
    rw [abs_lt]
    constructor <;> norm_num
  rw [hv, hu, hr]
  norm_num [SEASONS_CONFIG]

/-- C9: the stored `kwh` is the energy formula evaluated on the UNROUNDED
draws, then rounded to 2 decimals — and recomputing the formula from the
record's stored (rounded) fields can differ from the stored `kwh`. -/
theorem claim_C9_kwh_from_unrounded :
    (∀ (season : Season) (months : List Month) (ranges : Param → ℚ × ℚ)
        (year : ℕ) (rng : ℕ → ℚ) (i : ℕ) (r : DailyRecord),
      (generate_seasonal_data season months ranges year rng)[i]? = some r →
      r.kwh = round2 (calc_kwh_generalized
        (uniform (ranges .irradiance) (rng (5 * i)))
        (uniform (ranges .humidity) (rng (5 * i + 1)))
        (uniform (ranges .wind_speed) (rng (5 * i + 2)))
        (uniform (ranges .ambient_temperature) (rng (5 * i + 3)))
        (uniform (ranges .tilt_angle) (rng (5 * i + 4))) season)) ∧
    ∃ r ∈ generate_seasonal_data .winter (SEASONS_CONFIG .winter).months
        (SEASONS_CONFIG .winter).ranges 2024 rngHalf,
      r.kwh ≠ calc_kwh_generalized r.irradiance r.humidity r.wind_speed
        r.ambient_temperature r.tilt_angle r.season := by
  constructor
  · intro season months ranges year rng i r h
    rw [generate_seasonal_data, genFrom_getElem] at h
    cases hm : (datesOf months year)[i]? with
    | none => rw [hm] at h; simp at h
    | some md =>
      rw [hm] at h
      simp only [Option.map_some'] at h
      injection h with h
      subst h
      rw [mkRecord_kwh]
      simp [paramIdx]
  · refine ⟨exampleRecordHalf, List.getElem?_mem gen_winter_rngHalf_head, ?_⟩
    have habs : |(25 : ℚ) - 30| = 5 := by
      rw [abs_of_nonpos] <;> norm_num
    have hcalc : calc_kwh_generalized 500 50 (7/2) (25/2) 25 .winter = 35781/400 := by
      simp only [calc_kwh_generalized, coefficients, true_or, or_true, if_true]
      rw [habs]
      norm_num
    have hu1 : uniform ((300 : ℚ), 700) (1/2) = 500 := by norm_num [uniform]
    have hu2 : uniform ((30 : ℚ), 70) (1/2) = 50 := by norm_num [uniform]
    have hu3 : uniform ((1 : ℚ), 6) (1/2) = 7/2 := by norm_num [uniform]
    have hu4 : uniform ((5 : ℚ), 20) (1/2) = 25/2 := by norm_num [uniform]
    have hu5 : uniform ((10 : ℚ), 40) (1/2) = 25 := by norm_num [uniform]
    have hkwh : exampleRecordHalf.kwh =
        round2 (calc_kwh_generalized (uniform ((300 : ℚ), 700) (1/2))
          (uniform ((30 : ℚ), 70) (1/2)) (uniform ((1 : ℚ), 6) (1/2))
          (uniform ((5 : ℚ), 20) (1/2)) (uniform ((10 : ℚ), 40) (1/2)) .winter) := rfl
    have hirr : exampleRecordHalf.irradiance = round2 (uniform ((300 : ℚ), 700) (1/2)) := rfl
    have hhum : exampleRecordHalf.humidity = round2 (uniform ((30 : ℚ), 70) (1/2)) := rfl
    have hwind : exampleRecordHalf.wind_speed = round2 (uniform ((1 : ℚ), 6) (1/2)) := rfl
    have htemp : exampleRecordHalf.ambient_temperature =
        round2 (uniform ((5 : ℚ), 20) (1/2)) := rfl
    have htilt : exampleRecordHalf.tilt_angle = round2 (uniform ((10 : ℚ), 40) (1/2)) := rfl
    have hseason : exampleRecordHalf.season = .winter := rfl
    rw [hkwh, hirr, hhum, hwind, htemp, htilt, hseason, hu1, hu2, hu3, hu4, hu5, hcalc]
    rw [round2_exact 500 50000 (by norm_num), round2_exact 50 5000 (by norm_num),
      round2_exact (7/2) 350 (by norm_num), round2_exact (25/2) 1250 (by norm_num),
      round2_exact 25 2500 (by norm_num), hcalc]
    rw [round2_eq_of_near (35781/400) 8945 (by rw [abs_lt]; constructor <;> norm_num)]
    norm_num

theorem claim_C9_witness :
    (generate_seasonal_data .winter (SEASONS_CONFIG .winter).months
        (SEASONS_CONFIG .winter).ranges 2024 rngHalf)[0]? = some exampleRecordHalf ∧
    exampleRecordHalf.kwh = round2 (calc_kwh_generalized
      (uniform ((SEASONS_CONFIG .winter).ranges .irradiance) (rngHalf 0))
      (uniform ((SEASONS_CONFIG .winter).ranges .humidity) (rngHalf 1))
      (uniform ((SEASONS_CONFIG .winter).ranges .wind_speed) (rngHalf 2))
      (uniform ((SEASONS_CONFIG .winter).ranges .ambient_temperature) (rngHalf 3))
      (uniform ((SEASONS_CONFIG .winter).ranges .tilt_angle) (rngHalf 4)) .winter) :=
  ⟨gen_winter_rngHalf_head,
    by
      have h := claim_C9_kwh_from_unrounded.1 .winter (SEASONS_CONFIG .winter).months
        (SEASONS_CONFIG .winter).ranges 2024 rngHalf 0 exampleRecordHalf
        gen_winter_rngHalf_head
      simpa using h⟩

/-- C10: every generated record's date string carries the single selected
year; records are appended in the season's month-list order (one block per
month, in list order); for winter 2024 the resulting date strings are not in
ascending order (November and December of `year` precede January and
February of the same `year`). -/
theorem claim_C10_single_year_month_order :
    (∀ (season : Season) (year : ℕ) (rng : ℕ → ℚ) (s : String),
      s ∈ (generate_seasonal_data season (SEASONS_CONFIG season).months
          (SEASONS_CONFIG season).ranges year rng).map (fun r => r.date) →
      ∃ m d, s = dateStr year m d) ∧
    (∀ (season : Season) (year : ℕ) (rng : ℕ → ℚ),
      (generate_seasonal_data season (SEASONS_CONFIG season).months
          (SEASONS_CONFIG season).ranges year rng).map (fun r => r.month) =
        (SEASONS_CONFIG season).months.flatMap
          (fun m => List.replicate (get_days_in_month m year) m)) ∧
    (∀ rng : ℕ → ℚ,
      ¬ ((generate_seasonal_data .winter (SEASONS_CONFIG .winter).months
          (SEASONS_CONFIG .winter).ranges 2024 rng).map (fun r => r.date)).Sorted
        (fun a b => a.data ≤ b.data)) := by
  refine ⟨?_, ?_, ?_⟩
  · intro season year rng s hs
    rw [generate_seasonal_data, genFrom_map_date] at hs
    obtain ⟨md, hmd, rfl⟩ := List.mem_map.mp hs
    exact ⟨MONTH_NAME_TO_NUM md.1, md.2, rfl⟩
  · intro season year rng
    rw [generate_seasonal_data, genFrom_map_month, datesOf_map_fst]
  · intro rng
    rw [generate_seasonal_data, genFrom_map_date]
    decide

theorem claim_C10_witness :
    "2024-11-01" ∈ (generate_seasonal_data .winter (SEASONS_CONFIG .winter).months
        (SEASONS_CONFIG .winter).ranges 2024 rngHalf).map (fun r => r.date) ∧
    ∃ m d, ("2024-11-01" : String) = dateStr 2024 m d := by
  have hmem : "2024-11-01" ∈ (generate_seasonal_data .winter
      (SEASONS_CONFIG .winter).months (SEASONS_CONFIG .winter).ranges
      2024 rngHalf).map (fun r => r.date) := by
    have h0 : ((generate_seasonal_data .winter (SEASONS_CONFIG .winter).months
        (SEASONS_CONFIG .winter).ranges 2024 rngHalf).map (fun r => r.date))[0]? =
        some "2024-11-01" := by
      rw [generate_seasonal_data, genFrom_map_date]
      decide
    exact List.getElem?_mem h0
  exact ⟨hmem, claim_C10_single_year_month_order.1 .winter 2024 rngHalf
    "2024-11-01" hmem⟩

/- ====================  CSV export model (C4)  ==================== -/

/-- Digit classification used by the CSV parser. -/
def isDigitChar (c : Char) : Bool := 48 ≤ c.toNat && c.toNat ≤ 57

/-- Numeric value of a digit character. -/
def digitVal (c : Char) : ℕ := c.toNat - 48

theorem digitVal_digitChar (d : ℕ) (h : d < 10) : digitVal (digitChar d) = d := by
  interval_cases d <;> decide

theorem isDigitChar_digitChar (d : ℕ) (h : d < 10) : isDigitChar (digitChar d) = true := by
  interval_cases d <;> decide

theorem natChars_all_digit (fuel n : ℕ) :
    ∀ c ∈ natChars fuel n, isDigitChar c = true := by
  induction fuel generalizing n with
  | zero => intro c hc; simp [natChars] at hc
  | succ fuel ih =>
    intro c hc
    rw [natChars] at hc
    by_cases hn : n = 0
    · rw [if_pos hn] at hc; simp at hc
    · rw [if_neg hn] at hc
      rcases List.mem_append.mp hc with h | h
      · exact ih (n / 10) c h
      · rw [List.mem_singleton] at h
        subst h
        exact isDigitChar_digitChar _ (Nat.mod_lt n (by omega))

theorem natStr_all_digit (n : ℕ) : ∀ c ∈ natStr n, isDigitChar c = true := by
  intro c hc
  rw [natStr] at hc
  by_cases hn : n = 0
  · rw [if_pos hn] at hc
    rw [List.mem_singleton] at hc
    subst hc
    decide
  · rw [if_neg hn] at hc
    exact natChars_all_digit n n c hc

theorem natChars_ne_nil (fuel n : ℕ) (hf : fuel ≠ 0) (hn : n ≠ 0) :
    natChars fuel n ≠ [] := by
  cases fuel with
  | zero => exact absurd rfl hf
  | succ fuel =>
    rw [natChars, if_neg hn]
    simp

theorem natStr_ne_nil (n : ℕ) : natStr n ≠ [] := by
  rw [natStr]
  by_cases hn : n = 0
  · rw [if_pos hn]; simp
  · rw [if_neg hn]; exact natChars_ne_nil n n hn hn

theorem natChars_foldl (fuel : ℕ) :
    ∀ n a : ℕ, n ≤ fuel →
      (natChars fuel n).foldl (fun acc c => 10 * acc + digitVal c) a =
        a * 10 ^ (natChars fuel n).length + n := by
  induction fuel with
  | zero =>
    intro n a h
    interval_cases n
    simp [natChars]
  | succ fuel ih =>
    intro n a h
    by_cases hn : n = 0
    · subst hn
      simp [natChars]
    · rw [natChars, if_neg hn, List.foldl_append, List.length_append]
      have hdiv : n / 10 ≤ fuel := by
        have := Nat.div_lt_self (Nat.pos_of_ne_zero hn) (by omega : 1 < 10)
        omega
      rw [ih (n / 10) a hdiv]
      simp only [List.foldl_cons, List.foldl_nil, List.length_cons, List.length_nil]
      rw [digitVal_digitChar _ (Nat.mod_lt n (by omega))]
      have hpow : 10 ^ ((natChars fuel (n / 10)).length + (0 + 1)) =
          10 ^ (natChars fuel (n / 10)).length * 10 := by
        rw [Nat.zero_add, pow_succ]
      rw [hpow]
      have := Nat.div_add_mod n 10
      ring_nf
      omega

/-- The CSV parser's digit-string reader. -/
def parseDigits (cs : List Char) : Option ℕ :=
  if cs.isEmpty then none
  else if cs.all isDigitChar then
    some (cs.foldl (fun acc c => 10 * acc + digitVal c) 0)
  else none

theorem parseDigits_natStr (n : ℕ) : parseDigits (natStr n) = some n := by
  rw [parseDigits, if_neg (by simp [List.isEmpty_iff, natStr_ne_nil n]),
    if_pos (by rw [List.all_eq_true]; exact natStr_all_digit n)]
  rw [natStr]
  by_cases hn : n = 0
  · rw [if_pos hn]
    subst hn
    decide
  · rw [if_neg hn]
    rw [natChars_foldl n n 0 le_rfl]
    simp

/-- Split a character list on a separator (model of `str.split(sep)`:
always returns one chunk more than the number of separators). -/
def splitOnChar (sep : Char) : List Char → List (List Char)
  | [] => [[]]
  | c :: cs =>
    let r := splitOnChar sep cs
    if c = sep then [] :: r else (c :: r.headD []) :: r.tail

/-- Join chunks with a separator (inverse of `splitOnChar`). -/
def joinSep (sep : Char) : List (List Char) → List Char
  | [] => []
  | [x] => x
  | x :: y :: ys => x ++ sep :: joinSep sep (y :: ys)

theorem splitOnChar_cons (sep c : Char) (cs : List Char) :
    splitOnChar sep (c :: cs) =
      if c = sep then [] :: splitOnChar sep cs
      else (c :: (splitOnChar sep cs).headD []) :: (splitOnChar sep cs).tail := rfl

theorem splitOnChar_ne_nil (sep : Char) (cs : List Char) : splitOnChar sep cs ≠ [] := by
  cases cs with
  | nil => simp [splitOnChar]
  | cons c cs =>
    rw [splitOnChar_cons]
    split_ifs <;> simp

theorem splitOnChar_not_mem (sep : Char) (cs : List Char) (h : sep ∉ cs) :
    splitOnChar sep cs = [cs] := by
  induction cs with
  | nil => rfl
  | cons c cs ih =>
    rw [List.mem_cons, not_or] at h
    rw [splitOnChar_cons, if_neg (fun hc => h.1 hc.symm)]
    rw [ih h.2]
    rfl

theorem splitOnChar_append (sep : Char) (a b : List Char) (h : sep ∉ a) :
    splitOnChar sep (a ++ sep :: b) = a :: splitOnChar sep b := by
  induction a with
  | nil => simp [splitOnChar_cons]
  | cons c a ih =>
    rw [List.mem_cons, not_or] at h
    rw [List.cons_append, splitOnChar_cons, if_neg (fun hc => h.1 hc.symm)]
    rw [ih h.2]
    rfl

theorem splitOnChar_joinSep (sep : Char) (l : List (List Char)) (hl : l ≠ [])
    (h : ∀ cs ∈ l, sep ∉ cs) :
    splitOnChar sep (joinSep sep l) = l := by
  induction l with
  | nil => exact absurd rfl hl
  | cons x xs ih =>
    cases xs with
    | nil =>
      rw [joinSep]
      exact splitOnChar_not_mem sep x (h x (List.mem_cons_self x []))
    | cons y ys =>
      rw [joinSep, splitOnChar_append sep x _ (h x (List.mem_cons_self x (y :: ys)))]
      rw [ih (by simp) (fun cs hcs => h cs (List.mem_cons_of_mem x hcs))]

theorem mem_joinSep (sep : Char) (l : List (List Char)) (c : Char)
    (h : c ∈ joinSep sep l) : c = sep ∨ ∃ cs ∈ l, c ∈ cs := by
  induction l with
  | nil => simp [joinSep] at h
  | cons x xs ih =>
    cases xs with
    | nil =>
      rw [joinSep] at h
      exact Or.inr ⟨x, List.mem_cons_self x [], h⟩
    | cons y ys =>
      rw [joinSep, List.mem_append, List.mem_cons] at h
      rcases h with h | h | h
      · exact Or.inr ⟨x, List.mem_cons_self x (y :: ys), h⟩
      · exact Or.inl h
      · rcases ih h with h | ⟨cs, hcs, hc⟩
        · exact Or.inl h
        · exact Or.inr ⟨cs, List.mem_cons_of_mem x hcs, hc⟩

/-- Python's shortest `str` form of a float holding an exact 2-decimal
value (`89.0`, `89.3`, `89.34`, `-0.05`, …), as written by
`df.to_csv(index=False)` for the rounded record fields. -/
def ratChars (q : ℚ) : List Char :=
  let z : ℤ := ⌊100 * q⌋
  let n : ℕ := z.natAbs
  let ip : ℕ := n / 100
  let fr : ℕ := n % 100
  let frchars : List Char :=
    if fr % 10 = 0 then [digitChar (fr / 10)]
    else [digitChar (fr / 10), digitChar (fr % 10)]
  (if z < 0 then ['-'] else []) ++ natStr ip ++ '.' :: frchars

/-- Parse an integer cell and a 1- or 2-digit fraction cell. -/
def parseCents (ipcs frcs : List Char) : Option ℚ :=
  match parseDigits ipcs, parseDigits frcs with
  | some ip, some fr =>
    if frcs.length = 1 then some (((100 * ip + 10 * fr : ℕ) : ℚ) / 100)
    else if frcs.length = 2 then some (((100 * ip + fr : ℕ) : ℚ) / 100)
    else none
  | _, _ => none

/-- Parse an unsigned decimal with one or two fraction digits. -/
def parseRatNonneg (cs : List Char) : Option ℚ :=
  match splitOnChar '.' cs with
  | [ipcs, frcs] => parseCents ipcs frcs
  | _ => none

/-- Parse a (possibly negative) decimal cell back into a rational. -/
def parseRat (cs : List Char) : Option ℚ :=
  if cs.headD '0' = '-' then (parseRatNonneg cs.tail).map (fun q => -q)
  else parseRatNonneg cs

theorem digit_ne_dot (c : Char) (h : isDigitChar c = true) : c ≠ '.' := by
  intro hc
  subst hc
  simp [isDigitChar] at h

theorem digit_ne_dash (c : Char) (h : isDigitChar c = true) : c ≠ '-' := by
  intro hc
  subst hc
  simp [isDigitChar] at h

theorem digit_ne_comma (c : Char) (h : isDigitChar c = true) : c ≠ ',' := by
  intro hc
  subst hc
  simp [isDigitChar] at h

theorem digit_ne_newline (c : Char) (h : isDigitChar c = true) : c ≠ '\n' := by
  intro hc
  subst hc
  simp [isDigitChar] at h

theorem parseDigits_single (d : ℕ) (h : d < 10) :
    parseDigits [digitChar d] = some d := by
  rw [parseDigits, if_neg (by simp),
    if_pos (by simp [isDigitChar_digitChar d h])]
  simp [digitVal_digitChar d h]

theorem parseDigits_pair (d e : ℕ) (hd : d < 10) (he : e < 10) :
    parseDigits [digitChar d, digitChar e] = some (10 * d + e) := by
  rw [parseDigits, if_neg (by simp),
    if_pos (by simp [isDigitChar_digitChar d hd, isDigitChar_digitChar e he])]
  simp [digitVal_digitChar d hd, digitVal_digitChar e he]

theorem parseRatNonneg_eq (cs a b : List Char) (h : splitOnChar '.' cs = [a, b]) :
    parseRatNonneg cs = parseCents a b := by
  rw [parseRatNonneg, h]

theorem parseRatNonneg_body (ip fr : ℕ) (hfr : fr < 100) :
    parseRatNonneg (natStr ip ++ '.' ::
      (if fr % 10 = 0 then [digitChar (fr / 10)]
       else [digitChar (fr / 10), digitChar (fr % 10)])) =
      some (((100 * ip + fr : ℕ) : ℚ) / 100) := by
  have hdot : '.' ∉ natStr ip := fun hmem =>
    digit_ne_dot '.' (natStr_all_digit ip '.' hmem) rfl
  have hfr10 : fr / 10 < 10 := by omega
  by_cases h10 : fr % 10 = 0
  · rw [if_pos h10]
    rw [parseRatNonneg_eq _ (natStr ip) [digitChar (fr / 10)]
      (by
        rw [splitOnChar_append '.' _ _ hdot, splitOnChar_not_mem '.' _ (by
          intro hmem
          rw [List.mem_singleton] at hmem
          exact digit_ne_dot _ (isDigitChar_digitChar _ hfr10) hmem.symm)])]
    rw [parseCents, parseDigits_natStr, parseDigits_single _ hfr10]
    have h : 100 * ip + 10 * (fr / 10) = 100 * ip + fr := by omega
    simp [h]
  · rw [if_neg h10]
    rw [parseRatNonneg_eq _ (natStr ip) [digitChar (fr / 10), digitChar (fr % 10)]
      (by
        rw [splitOnChar_append '.' _ _ hdot, splitOnChar_not_mem '.' _ (by
          intro hmem
          rcases List.mem_cons.mp hmem with h | h
          · exact digit_ne_dot _ (isDigitChar_digitChar _ hfr10) h.symm
          · rw [List.mem_singleton] at h
            exact digit_ne_dot _
              (isDigitChar_digitChar _ (Nat.mod_lt fr (by omega))) h.symm)])]
    rw [parseCents, parseDigits_natStr, parseDigits_pair _ _ hfr10 (Nat.mod_lt fr (by omega))]
    have h : 100 * ip + (10 * (fr / 10) + fr % 10) = 100 * ip + fr := by omega
    simp [h]

theorem natStr_headD_digit (n : ℕ) : isDigitChar ((natStr n).headD '0') = true := by
  obtain ⟨c, t, h⟩ := List.exists_cons_of_ne_nil (natStr_ne_nil n)
  rw [h]
  exact natStr_all_digit n c (h ▸ List.mem_cons_self c t)

theorem parseRat_dash (cs : List Char) :
    parseRat ('-' :: cs) = (parseRatNonneg cs).map (fun q => -q) := by
  rw [parseRat]
  simp only [List.headD_cons, List.tail_cons, if_true]

theorem parseRat_of_head_digit (c : Char) (cs : List Char) (hc : c ≠ '-') :
    parseRat (c :: cs) = parseRatNonneg (c :: cs) := by
  rw [parseRat]
  simp only [List.headD_cons]
  rw [if_neg hc]

theorem parseRat_ratChars (z : ℤ) :
    parseRat (ratChars ((z : ℚ) / 100)) = some ((z : ℚ) / 100) := by
  have hfloor : ⌊(100 : ℚ) * ((z : ℚ) / 100)⌋ = z := by
    have h : (100 : ℚ) * ((z : ℚ) / 100) = (z : ℚ) := by field_simp
    rw [h, Int.floor_intCast]
  have hfr : z.natAbs % 100 < 100 := Nat.mod_lt _ (by omega)
  have hn : 100 * (z.natAbs / 100) + z.natAbs % 100 = z.natAbs := Nat.div_add_mod _ 100
  rcases lt_or_le z 0 with hz | hz
  · have hcast : ((z.natAbs : ℕ) : ℚ) = -(z : ℚ) := by
      rw [Int.cast_natAbs, abs_of_neg hz]
      push_cast
      ring
    simp only [ratChars, hfloor, if_pos hz, List.singleton_append]
    rw [List.cons_append, parseRat_dash, parseRatNonneg_body _ _ hfr,
      Option.map_some', hn]
    rw [hcast]
    rw [Option.some_inj]
    ring
  · have hcast : ((z.natAbs : ℕ) : ℚ) = (z : ℚ) := by
      rw [Int.cast_natAbs, abs_of_nonneg hz]
    simp only [ratChars, hfloor, if_neg (not_lt.mpr hz), List.nil_append]
    obtain ⟨c, t, hct⟩ := List.exists_cons_of_ne_nil (natStr_ne_nil (z.natAbs / 100))
    have hc : isDigitChar c = true :=
      natStr_all_digit _ c (hct ▸ List.mem_cons_self c t)
    rw [hct, List.cons_append, parseRat_of_head_digit c _ (digit_ne_dash c hc)]
    rw [← List.cons_append, ← hct]
    rw [parseRatNonneg_body _ _ hfr, hn]
    rw [hcast]

/-- The ten cells of one CSV row, in the DataFrame's column order
`date,irradiance,humidity,wind_speed,ambient_temperature,tilt_angle,kwh,season,month,day`. -/
def recordCells (r : DailyRecord) : List (List Char) :=
  [r.date.data, ratChars r.irradiance, ratChars r.humidity, ratChars r.wind_speed,
   ratChars r.ambient_temperature, ratChars r.tilt_angle, ratChars r.kwh,
   (seasonName r.season).data, (monthName r.month).data, natStr r.day]

/-- One CSV data row. -/
def rowChars (r : DailyRecord) : List Char := joinSep ',' (recordCells r)

/-- The CSV header row written by `df.to_csv(index=False)`. -/
def headerChars : List Char :=
  "date,irradiance,humidity,wind_speed,ambient_temperature,tilt_angle,kwh,season,month,day".data

/-- The full CSV text of `df.to_csv(index=False)`: header, then one
newline-terminated row per record. -/
def toCsvChars (rows : List DailyRecord) : List Char :=
  headerChars ++ '\n' :: rows.flatMap (fun r => rowChars r ++ ['\n'])

/-- `toCsvChars` packaged as a `String`. -/
def toCsvString (rows : List DailyRecord) : String := ⟨toCsvChars rows⟩

/-- The download filename `f"solar_energy_{season}_{year}.csv"`. -/
def downloadFileName (season : Season) (year : ℕ) : String :=
  "solar_energy_" ++ seasonName season ++ "_" ++ ⟨natStr year⟩ ++ ".csv"

/-- Parse a season cell. -/
def parseSeason (cs : List Char) : Option Season :=
  if cs = "winter".data then some .winter
  else if cs = "spring".data then some .spring
  else if cs = "summer".data then some .summer
  else if cs = "autumn".data then some .autumn
  else none

/-- Parse a month cell. -/
def parseMonth (cs : List Char) : Option Month :=
  if cs = "January".data then some .january
  else if cs = "February".data then some .february
  else if cs = "March".data then some .march
  else if cs = "April".data then some .april
  else if cs = "May".data then some .may
  else if cs = "June".data then some .june
  else if cs = "July".data then some .july
  else if cs = "August".data then some .august
  else if cs = "September".data then some .september
  else if cs = "October".data then some .october
  else if cs = "November".data then some .november
  else if cs = "December".data then some .december
  else none

/-- Rebuild a record from its ten parsed cells. -/
def parseFields (c0 c1 c2 c3 c4 c5 c6 c7 c8 c9 : List Char) : Option DailyRecord :=
  match parseRat c1, parseRat c2, parseRat c3, parseRat c4, parseRat c5, parseRat c6,
      parseSeason c7, parseMonth c8, parseDigits c9 with
  | some irr, some hum, some wind, some temp, some tilt, some kwh, some sea,
      some mon, some d =>
    some ⟨⟨c0⟩, irr, hum, wind, temp, tilt, kwh, sea, mon, d⟩
  | _, _, _, _, _, _, _, _, _ => none

/-- Parse one CSV data row. -/
def parseRow (cs : List Char) : Option DailyRecord :=
  match splitOnChar ',' cs with
  | [c0, c1, c2, c3, c4, c5, c6, c7, c8, c9] => parseFields c0 c1 c2 c3 c4 c5 c6 c7 c8 c9
  | _ => none

/-- Parse all data rows. -/
def parseRows : List (List Char) → Option (List DailyRecord)
  | [] => some []
  | row :: rest =>
    match parseRow row, parseRows rest with
    | some r0, some rs => some (r0 :: rs)
    | _, _ => none

/-- Parse a full CSV text: header line, data rows, trailing newline. -/
def parseCsvChars (cs : List Char) : Option (List DailyRecord) :=
  match splitOnChar '\n' cs with
  | [] => none
  | h :: rest =>
    if h = headerChars then
      if rest.getLast? = some [] then parseRows rest.dropLast else none
    else none

/-- `parseCsvChars` on a `String`. -/
def parseCsvString (s : String) : Option (List DailyRecord) := parseCsvChars s.data

/-- The shape invariants of a generated record that the CSV round-trip
relies on: the date is made of digits and dashes, and every float field
holds an exact 2-decimal value. -/
structure WFRecord (r : DailyRecord) : Prop where
  dateOk : ∀ c ∈ r.date.data, isDigitChar c = true ∨ c = '-'
  irrOk : ∃ z : ℤ, r.irradiance = (z : ℚ) / 100
  humOk : ∃ z : ℤ, r.humidity = (z : ℚ) / 100
  windOk : ∃ z : ℤ, r.wind_speed = (z : ℚ) / 100
  tempOk : ∃ z : ℤ, r.ambient_temperature = (z : ℚ) / 100
  tiltOk : ∃ z : ℤ, r.tilt_angle = (z : ℚ) / 100
  kwhOk : ∃ z : ℤ, r.kwh = (z : ℚ) / 100

theorem ratChars_class (q : ℚ) :
    ∀ c ∈ ratChars q, isDigitChar c = true ∨ c = '-' ∨ c = '.' := by
  intro c hc
  simp only [ratChars] at hc
  rw [List.mem_append, List.mem_append] at hc
  rcases hc with (hc | hc) | hc
  · split_ifs at hc
    · rw [List.mem_singleton] at hc
      exact Or.inr (Or.inl hc)
    · simp at hc
  · exact Or.inl (natStr_all_digit _ c hc)
  · rw [List.mem_cons] at hc
    rcases hc with hc | hc
    · exact Or.inr (Or.inr hc)
    · have hlt : ⌊100 * q⌋.natAbs % 100 / 10 < 10 := by omega
      have hlt2 : ⌊100 * q⌋.natAbs % 100 % 10 < 10 := by omega
      split_ifs at hc
      · rw [List.mem_singleton] at hc
        subst hc
        exact Or.inl (isDigitChar_digitChar _ hlt)
      · rw [List.mem_cons] at hc
        rcases hc with hc | hc
        · subst hc
          exact Or.inl (isDigitChar_digitChar _ hlt)
        · rw [List.mem_singleton] at hc
          subst hc
          exact Or.inl (isDigitChar_digitChar _ hlt2)

theorem class_ne (c : Char) (h : isDigitChar c = true ∨ c = '-' ∨ c = '.') :
    c ≠ ',' ∧ c ≠ '\n' := by
  rcases h with h | h | h
  · exact ⟨digit_ne_comma c h, digit_ne_newline c h⟩
  · subst h; constructor <;> decide
  · subst h; constructor <;> decide

theorem seasonName_ne (s : Season) :
    ∀ c ∈ (seasonName s).data, c ≠ ',' ∧ c ≠ '\n' := by
  cases s <;> decide

theorem monthName_ne (m : Month) :
    ∀ c ∈ (monthName m).data, c ≠ ',' ∧ c ≠ '\n' := by
  cases m <;> decide

theorem recordCells_ne (r : DailyRecord) (h : WFRecord r) :
    ∀ cs ∈ recordCells r, ∀ c ∈ cs, c ≠ ',' ∧ c ≠ '\n' := by
  intro cs hcs
  simp only [recordCells, List.mem_cons, List.not_mem_nil, or_false] at hcs
  rcases hcs with h0 | h1 | h2 | h3 | h4 | h5 | h6 | h7 | h8 | h9
  · subst h0
    intro c hc
    rcases h.dateOk c hc with hd | hd
    · exact class_ne c (Or.inl hd)
    · exact class_ne c (Or.inr (Or.inl hd))
  · subst h1; exact fun c hc => class_ne c (ratChars_class _ c hc)
  · subst h2; exact fun c hc => class_ne c (ratChars_class _ c hc)
  · subst h3; exact fun c hc => class_ne c (ratChars_class _ c hc)
  · subst h4; exact fun c hc => class_ne c (ratChars_class _ c hc)
  · subst h5; exact fun c hc => class_ne c (ratChars_class _ c hc)
  · subst h6; exact fun c hc => class_ne c (ratChars_class _ c hc)
  · subst h7; exact seasonName_ne r.season
  · subst h8; exact monthName_ne r.month
  · subst h9; exact fun c hc => class_ne c (Or.inl (natStr_all_digit _ c hc))

theorem rowChars_no_newline (r : DailyRecord) (h : WFRecord r) :
    '\n' ∉ rowChars r := by
  intro hmem
  rcases mem_joinSep ',' (recordCells r) '\n' hmem with hc | ⟨cs, hcs, hc⟩
  · exact absurd hc (by decide)
  · exact (recordCells_ne r h cs hcs '\n' hc).2 rfl

theorem headerChars_no_newline : '\n' ∉ headerChars := by decide

theorem parseRow_eq (cs c0 c1 c2 c3 c4 c5 c6 c7 c8 c9 : List Char)
    (h : splitOnChar ',' cs = [c0, c1, c2, c3, c4, c5, c6, c7, c8, c9]) :
    parseRow cs = parseFields c0 c1 c2 c3 c4 c5 c6 c7 c8 c9 := by
  rw [parseRow, h]

theorem parseSeason_name (s : Season) :
    parseSeason ((seasonName s).data) = some s := by
  cases s <;> decide

theorem parseMonth_name (m : Month) :
    parseMonth ((monthName m).data) = some m := by
  cases m <;> decide

theorem parseRow_rowChars (r : DailyRecord) (h : WFRecord r) :
    parseRow (rowChars r) = some r := by
  obtain ⟨z1, hz1⟩ := h.irrOk
  obtain ⟨z2, hz2⟩ := h.humOk
  obtain ⟨z3, hz3⟩ := h.windOk
  obtain ⟨z4, hz4⟩ := h.tempOk
  obtain ⟨z5, hz5⟩ := h.tiltOk
  obtain ⟨z6, hz6⟩ := h.kwhOk
  have hsplit : splitOnChar ',' (rowChars r) =
      [r.date.data, ratChars r.irradiance, ratChars r.humidity, ratChars r.wind_speed,
       ratChars r.ambient_temperature, ratChars r.tilt_angle, ratChars r.kwh,
       (seasonName r.season).data, (monthName r.month).data, natStr r.day] := by
    rw [rowChars, splitOnChar_joinSep ',' _ (by simp [recordCells])
      (fun cs hcs hmem => (recordCells_ne r h cs hcs ',' hmem).1 rfl)]
    rfl
  rw [parseRow_eq _ _ _ _ _ _ _ _ _ _ _ hsplit]
  rw [hz1, hz2, hz3, hz4, hz5, hz6]
  simp only [parseFields]
  rw [parseRat_ratChars z1, parseRat_ratChars z2, parseRat_ratChars z3,
    parseRat_ratChars z4, parseRat_ratChars z5, parseRat_ratChars z6,
    parseSeason_name, parseMonth_name, parseDigits_natStr]
  rw [← hz1, ← hz2, ← hz3, ← hz4, ← hz5, ← hz6]

theorem parseRows_map (rows : List DailyRecord)
    (h : ∀ r ∈ rows, parseRow (rowChars r) = some r) :
    parseRows (rows.map rowChars) = some rows := by
  induction rows with
  | nil => rfl
  | cons r rest ih =>
    rw [List.map_cons, parseRows, h r (List.mem_cons_self r rest),
      ih (fun x hx => h x (List.mem_cons_of_mem r hx))]

theorem splitOnChar_rows (rows : List DailyRecord)
    (h : ∀ r ∈ rows, '\n' ∉ rowChars r) :
    splitOnChar '\n' (rows.flatMap (fun r => rowChars r ++ ['\n'])) =
      rows.map rowChars ++ [[]] := by
  induction rows with
  | nil => rfl
  | cons r rest ih =>
    rw [List.flatMap_cons, List.append_assoc, List.singleton_append,
      splitOnChar_append '\n' _ _ (h r (List.mem_cons_self r rest)),
      ih (fun x hx => h x (List.mem_cons_of_mem r hx))]
    rfl

theorem parseCsvChars_eq (cs h0 : List Char) (rest : List (List Char))
    (hs : splitOnChar '\n' cs = h0 :: rest) :
    parseCsvChars cs =
      if h0 = headerChars then
        if rest.getLast? = some [] then parseRows rest.dropLast else none
      else none := by
  rw [parseCsvChars, hs]

/-- CSV round-trip for any list of well-formed records. -/
theorem parseCsv_toCsv (rows : List DailyRecord) (h : ∀ r ∈ rows, WFRecord r) :
    parseCsvChars (toCsvChars rows) = some rows := by
  have hsplit : splitOnChar '\n' (toCsvChars rows) =
      headerChars :: (rows.map rowChars ++ [[]]) := by
    rw [toCsvChars, splitOnChar_append '\n' _ _ headerChars_no_newline,
      splitOnChar_rows rows (fun r hr => rowChars_no_newline r (h r hr))]
  rw [parseCsvChars_eq _ _ _ hsplit, if_pos rfl,
    if_pos (by rw [List.getLast?_concat]), List.dropLast_concat]
  exact parseRows_map rows (fun r hr => parseRow_rowChars r (h r hr))

theorem pad2_digit (n : ℕ) : ∀ c ∈ pad2 n, isDigitChar c = true := by
  intro c hc
  rw [pad2] at hc
  split_ifs at hc
  · rcases List.mem_cons.mp hc with hc | hc
    · subst hc; decide
    · exact natStr_all_digit n c hc
  · exact natStr_all_digit n c hc

theorem dateChars_class (y m d : ℕ) :
    ∀ c ∈ dateChars y m d, isDigitChar c = true ∨ c = '-' := by
  intro c hc
  rw [dateChars, List.mem_append, List.mem_cons] at hc
  rcases hc with hc | hc | hc
  · exact Or.inl (natStr_all_digit y c hc)
  · exact Or.inr hc
  · rw [List.mem_append, List.mem_cons] at hc
    rcases hc with hc | hc | hc
    · exact Or.inl (pad2_digit m c hc)
    · exact Or.inr hc
    · exact Or.inl (pad2_digit d c hc)

/-- Every generated record is well-formed for the CSV round-trip. -/
theorem generated_WF (season : Season) (months : List Month)
    (ranges : Param → ℚ × ℚ) (year : ℕ) (rng : ℕ → ℚ) :
    ∀ r ∈ generate_seasonal_data season months ranges year rng, WFRecord r := by
  intro r hr
  rw [generate_seasonal_data] at hr
  obtain ⟨md, hmd, j, rfl⟩ := mem_genFrom _ _ _ _ _ _ _ hr
  constructor
  · intro c hc
    rw [mkRecord_date] at hc
    exact dateChars_class _ _ _ c hc
  · exact ⟨_, rfl⟩
  · exact ⟨_, rfl⟩
  · exact ⟨_, rfl⟩
  · exact ⟨_, rfl⟩
  · exact ⟨_, rfl⟩
  · exact ⟨_, rfl⟩

/-- C4: serializing a generated dataset with the CSV writer and parsing it
back reproduces the dataset exactly (same rows, same order, columns in the
order `date,irradiance,humidity,wind_speed,ambient_temperature,tilt_angle,kwh,season,month,day`,
all values exact); the download filename follows
`solar_energy_{season}_{year}.csv`. -/
theorem claim_C4_csv_roundtrip :
    (∀ (season : Season) (months : List Month) (ranges : Param → ℚ × ℚ)
        (year : ℕ) (rng : ℕ → ℚ),
      parseCsvString (toCsvString
          (generate_seasonal_data season months ranges year rng)) =
        some (generate_seasonal_data season months ranges year rng)) ∧
    downloadFileName .winter 2024 = "solar_energy_winter_2024.csv" := by
  constructor
  · intro season months ranges year rng
    exact parseCsv_toCsv _ (generated_WF season months ranges year rng)
  · decide
